import Mathlib

/-!
Verification development for the fil-terminator repository.

The Go sources are shallowly embedded as follows:

* Machine integers (int, int64, abi.ChainEpoch, abi.SectorNumber) are
  modelled as unbounded ℤ.  The quantities handled by the tool (epochs in
  the millions, attoFIL amounts) are far below the int64 overflow
  boundary, so 64-bit wraparound is not modelled.
* Arbitrary-precision integers (filecoin big.Int over math/big) are ℤ.
  The big.Div of math/big is Euclidean division, which is exactly the
  division of ℤ in Lean, so the slash stands for big.Div throughout.
* Go time.Time and time.Duration values are modelled as ℤ nanosecond
  counts.
* The float64 arithmetic of AdjustNetworkParams and of the day
  conversions is modelled over ℚ with the exact decimal constants of the
  source; the int64 conversion that Go applies to a float is modelled as
  truncation toward zero of the exact rational value.
* Fallible Go calls that return (T, error) are modelled as Except; the
  empty-string error sentinel of the result records is modelled as an
  Option field (none = no error).
* The external lotus collaborators (chain state queries and the
  protocol penalty formulas) are out of scope per the specification; they
  enter the model as an explicit Chain value (snapshots of the state that
  the queries would return) and a PenaltyOracle record of opaque
  deterministic functions, so every theorem quantifies over all possible
  behaviours of the collaborators.
-/

namespace FilTerminator

/-! ### Time and epoch conversion (pkg/utils/utils.go lines 14-129) -/

/-- Duration of each epoch in nanoseconds: 30 * time.Second. -/
def EpochDuration : ℤ := 30 * 1000000000

/-- Embedding of utils.EpochToTime: genesisTime.Add(time.Duration(epoch) * EpochDuration).
Times are nanosecond counts. -/
def EpochToTime (epoch : ℤ) (genesisTime : ℤ) : ℤ :=
  genesisTime + epoch * EpochDuration

/-- Embedding of utils.TimeToEpoch: clamps to 0 strictly before genesis, otherwise
divides the elapsed duration by EpochDuration (the operands are nonnegative there,
so Go's truncating int64 division agrees with the Euclidean division used here). -/
def TimeToEpoch (t : ℤ) (genesisTime : ℤ) : ℤ :=
  if t < genesisTime then 0
  else (t - genesisTime) / EpochDuration

/-- Embedding of utils.EpochsToDays (float64 division by 2880.0, modelled exactly over ℚ). -/
def EpochsToDays (epochs : ℤ) : ℚ := (epochs : ℚ) / 2880

/-! ### Range parser (pkg/utils/utils.go lines 18-66)

Go strings are modelled as lists of characters.  strings.Split,
strings.TrimSpace and strconv.Atoi are embedded below; TrimSpace is
modelled on the ASCII whitespace of unicode.IsSpace, which covers every
input the tool handles. -/

/-- Character class trimmed by strings.TrimSpace (ASCII part of unicode.IsSpace). -/
def isGoSpace (c : Char) : Bool :=
  c == ' ' || c == '\t' || c == '\n' || c == '\x0b' || c == '\x0c' || c == '\r'

/-- Embedding of strings.TrimSpace. -/
def trimSpace (s : List Char) : List Char :=
  ((s.dropWhile isGoSpace).reverse.dropWhile isGoSpace).reverse

/-- Embedding of strings.Split with a one-character separator: splits at every
occurrence, keeping empty fields, and yields one (empty) field for the empty string. -/
def splitOnChar (sep : Char) : List Char → List (List Char)
  | [] => [[]]
  | c :: rest =>
    match splitOnChar sep rest with
    | [] => [[]]
    | p :: ps => if c == sep then [] :: p :: ps else (c :: p) :: ps

/-- Numeric value of a digit string, most significant digit first. -/
def digitsVal (s : List Char) : ℕ :=
  s.foldl (fun acc c => 10 * acc + (c.toNat - 48)) 0

/-- Decimal digits after the optional sign of strconv.Atoi: nonempty and all ASCII digits. -/
def goAtoiDigits (s : List Char) : Option ℤ :=
  if s.isEmpty then none
  else if s.all (fun c => c.isDigit) then some ((digitsVal s : ℕ) : ℤ)
  else none

/-- Embedding of strconv.Atoi: an optional single leading sign followed by decimal
digits; anything else is an error (none).  The int64 range check of Atoi is not
modelled (no claim involves 19-digit tokens). -/
def goAtoi (s : List Char) : Option ℤ :=
  match s with
  | [] => none
  | c :: rest =>
    if c = '-' then (goAtoiDigits rest).map (fun n => -n)
    else if c = '+' then goAtoiDigits rest
    else goAtoiDigits (c :: rest)

/-- Error cases of ParseSectorNumbers, one constructor per fmt.Errorf site of the
source, carrying the data that the source interpolates into the message. -/
inductive ParseErr where
  | invalidRangeFormat (part : List Char)
  | invalidStartSector (tok : List Char)
  | invalidEndSector (tok : List Char)
  | startGreaterThanEnd (startN endN : ℤ)
  | invalidSectorNumber (part : List Char)
  | sectorNegative (num : ℤ)
deriving DecidableEq

/-- Expansion of an ascending inclusive range: for i := start; i <= end; i++. -/
def rangeList (startN endN : ℤ) : List ℤ :=
  (List.range (endN + 1 - startN).toNat).map (fun i => startN + i)

/-- Body of the per-token loop of utils.ParseSectorNumbers: trims the token, skips
empty tokens, routes tokens containing a dash to the range branch and the rest to
the single-number branch, mirroring the source's checks in order. -/
def parsePart (rawPart : List Char) : Except ParseErr (List ℤ) :=
  let part := trimSpace rawPart
  if part.isEmpty then Except.ok []
  else if part.contains '-' then
    match splitOnChar '-' part with
    | [rp0, rp1] =>
      match goAtoi (trimSpace rp0) with
      | none => Except.error (ParseErr.invalidStartSector rp0)
      | some startN =>
        match goAtoi (trimSpace rp1) with
        | none => Except.error (ParseErr.invalidEndSector rp1)
        | some endN =>
          if startN > endN then Except.error (ParseErr.startGreaterThanEnd startN endN)
          else Except.ok (rangeList startN endN)
    | _ => Except.error (ParseErr.invalidRangeFormat part)
  else
    match goAtoi part with
    | none => Except.error (ParseErr.invalidSectorNumber part)
    | some num =>
      if num < 0 then Except.error (ParseErr.sectorNegative num)
      else Except.ok [num]

/-- Left-to-right processing of the comma-separated tokens, stopping at the first
error (the source returns nil together with the error, so no partial result survives). -/
def parseParts : List (List Char) → Except ParseErr (List ℤ)
  | [] => Except.ok []
  | p :: ps =>
    match parsePart p with
    | Except.error e => Except.error e
    | Except.ok nums =>
      match parseParts ps with
      | Except.error e => Except.error e
      | Except.ok rest => Except.ok (nums ++ rest)

/-- Embedding of utils.ParseSectorNumbers. -/
def ParseSectorNumbers (s : List Char) : Except ParseErr (List ℤ) :=
  parseParts (splitOnChar ',' s)

/-- Recognizer for the negative-number error case, used to state its unreachability. -/
def isSectorNegativeErr : Except ParseErr (List ℤ) → Bool
  | Except.error (ParseErr.sectorNegative _) => true
  | _ => false

/-! ### Network parameter projector (pkg/utils/utils.go lines 69-105) -/

/-- Position and velocity pair of a smoothed network estimate (builtin.FilterEstimate). -/
structure FilterEstimate where
  PositionEstimate : ℤ
  VelocityEstimate : ℤ
deriving DecidableEq

/-- Truncation toward zero, as Go's int64(...) conversion of a float64 value;
the float value itself is modelled by the exact rational. -/
def i64trunc (q : ℚ) : ℤ := if q < 0 then -⌊-q⌋ else ⌊q⌋

/-- Embedding of utils.AdjustNetworkParams.  Rates are the exact decimal constants
of the source; each position and velocity is multiplied by the truncated factor
times 1000 and divided by 1000 with big.Div (Euclidean division). -/
def AdjustNetworkParams (reward power : FilterEstimate) (projectionEpochs : ℤ) :
    FilterEstimate × FilterEstimate :=
  if projectionEpochs ≤ 0 then (reward, power)
  else
    let growthFactor : ℚ := 1 + 0.0001 * (projectionEpochs : ℚ)
    let decayFactor0 : ℚ := 1 - 0.00005 * (projectionEpochs : ℚ)
    let decayFactor : ℚ := if decayFactor0 < 0.1 then 0.1 else decayFactor0
    let newPowerPos := power.PositionEstimate * i64trunc (growthFactor * 1000) / 1000
    let newPowerVel := power.VelocityEstimate * i64trunc (growthFactor * 1000) / 1000
    let newRewardPos := reward.PositionEstimate * i64trunc (decayFactor * 1000) / 1000
    let newRewardVel := reward.VelocityEstimate * i64trunc (decayFactor * 1000) / 1000
    (⟨newRewardPos, newRewardVel⟩, ⟨newPowerPos, newPowerVel⟩)

/-! ### Chain state and external collaborators

CalculateTerminationFee and calculateMinerStrategy read chain state through
the lotus FullNode API and call the protocol penalty formulas of the miner
actor package.  Both collaborators are out of scope per the specification;
a Snapshot packages everything the code reads at one tipset, a Chain maps
heights to snapshots, and a PenaltyOracle carries the two opaque
deterministic penalty functions together with QAPowerForSector. -/

/-- Fields of miner.SectorOnChainInfo that the tool reads. -/
structure SectorOnChainInfo where
  SectorNumber : ℤ
  Activation : ℤ
  Expiration : ℤ
  InitialPledge : ℤ
deriving DecidableEq

/-- State visible at one tipset: everything the code queries at ts.Key(). -/
structure Snapshot where
  height : ℤ
  networkVersion : ℤ
  minerVersion : ℤ
  sectorSize : ℤ
  sectors : List SectorOnChainInfo
  rewardSmoothed : FilterEstimate
  powerSmoothed : FilterEstimate

/-- Chain state service: the current head and the (possibly unavailable)
finalized snapshots at historical heights. -/
structure Chain where
  current : Snapshot
  snapshots : ℤ → Option Snapshot

/-- Protocol penalty collaborator: PledgePenaltyForContinuedFault
(networkVersion, rewardSmoothed, powerSmoothed, qaPower),
PledgePenaltyForTermination (networkVersion, initialPledge, sectorAge,
faultFee) and QAPowerForSector (sectorSize, sector); the first two may fail. -/
structure PenaltyOracle where
  pledgePenaltyForContinuedFault : ℤ → FilterEstimate → FilterEstimate → ℤ → Except String ℤ
  pledgePenaltyForTermination : ℤ → ℤ → ℤ → ℤ → Except String ℤ
  qaPowerForSector : ℤ → SectorOnChainInfo → ℤ

/-! ### Termination fee calculation (part_000, CalculateTerminationFee) -/

/-- Embedding of utils.CalculationRequest. -/
structure CalculationRequest where
  MinerID : String
  TargetEpoch : ℤ
  SectorNumbers : List ℤ

/-- Embedding of utils.SectorResult.  ExpiredDays models the float64 field over ℚ. -/
structure SectorResult where
  SectorNumber : ℤ
  Fee : ℤ
  Age : ℤ
  IsExpired : Bool
  ExpiredDays : ℚ

/-- Error cases of the calculation paths, one constructor per early-return site
that the claims touch; the messages of the external penalty errors are carried
verbatim.  Go signals these through a nonempty Error string; here they are an
Option, none standing for the empty string. -/
inductive CalcErr where
  | getTipsetFailed (epoch : ℤ)
  | unsupportedMinerVersion (v : ℤ)
  | getSectorInfoFailed (num : ℤ)
  | faultFeeFailed (msg : String)
  | terminationFeeFailed (msg : String)
deriving DecidableEq

/-- Embedding of utils.CalculationResult (counts are Go ints, modelled as ℤ). -/
structure CalculationResult where
  MinerID : String
  TargetEpoch : ℤ
  CurrentEpoch : ℤ
  IsEstimate : Bool
  TotalSectors : ℤ
  ActiveSectors : ℤ
  ExpiredSectors : ℤ
  TotalFee : ℤ
  SectorResults : List SectorResult
  Error : Option CalcErr

/-- Lookup of one sector number via StateSectorGetInfo: absence is the
per-number fetch failure of the source. -/
def findSector (sectors : List SectorOnChainInfo) (num : ℤ) : Option SectorOnChainInfo :=
  sectors.find? (fun s => s.SectorNumber == num)

/-- Per-number sector fetch loop of the source (error aborts the request). -/
def lookupSectors (ts : Snapshot) : List ℤ → Except CalcErr (List SectorOnChainInfo)
  | [] => Except.ok []
  | n :: ns =>
    match findSector ts.sectors n with
    | none => Except.error (CalcErr.getSectorInfoFailed n)
    | some info =>
      match lookupSectors ts ns with
      | Except.error e => Except.error e
      | Except.ok rest => Except.ok (info :: rest)

/-- Sector selection of CalculateTerminationFee: an empty request list means all
sectors (StateMinerSectors), otherwise each requested number is fetched. -/
def getSectorList (ts : Snapshot) (nums : List ℤ) : Except CalcErr (List SectorOnChainInfo) :=
  if nums.isEmpty then Except.ok ts.sectors else lookupSectors ts nums

/-- Per-sector fee loop of CalculateTerminationFee (part_000 lines 177-226):
an expired sector (targetEpoch >= expiration) is recorded without a fee; an
active sector's fault fee and termination fee come from the penalty oracle and
any oracle failure aborts the whole loop with an error.  Returns
(totalFee, expiredCount, sectorResults) on success. -/
def calcSectorFees (oracle : PenaltyOracle) (nv sectorSize : ℤ)
    (rewardSmoothed powerSmoothed : FilterEstimate) (targetEpoch : ℤ) :
    List SectorOnChainInfo → Except CalcErr (ℤ × ℤ × List SectorResult)
  | [] => Except.ok (0, 0, [])
  | sector :: rest =>
    if sector.Expiration ≤ targetEpoch then
      match calcSectorFees oracle nv sectorSize rewardSmoothed powerSmoothed targetEpoch rest with
      | Except.error e => Except.error e
      | Except.ok (totalFee, expired, results) =>
        Except.ok (totalFee, expired + 1,
          { SectorNumber := sector.SectorNumber, Fee := 0, Age := 0, IsExpired := true,
            ExpiredDays := EpochsToDays (targetEpoch - sector.Expiration) } :: results)
    else
      let sectorAge := targetEpoch - sector.Activation
      match oracle.pledgePenaltyForContinuedFault nv rewardSmoothed powerSmoothed
          (oracle.qaPowerForSector sectorSize sector) with
      | Except.error msg => Except.error (CalcErr.faultFeeFailed msg)
      | Except.ok faultFee =>
        match oracle.pledgePenaltyForTermination nv sector.InitialPledge sectorAge faultFee with
        | Except.error msg => Except.error (CalcErr.terminationFeeFailed msg)
        | Except.ok fee =>
          match calcSectorFees oracle nv sectorSize rewardSmoothed powerSmoothed targetEpoch rest with
          | Except.error e => Except.error e
          | Except.ok (totalFee, expired, results) =>
            Except.ok (totalFee + fee, expired,
              { SectorNumber := sector.SectorNumber, Fee := fee, Age := sectorAge,
                IsExpired := false, ExpiredDays := 0 } :: results)

/-- Tail of CalculateTerminationFee once the tipset is resolved: the miner
version gate, the sector selection, and the fee loop run against the reward and
power signals read from that snapshot, which are passed to the loop exactly as
read (the source applies no adjustment to them). -/
def calcAtSnapshot (oracle : PenaltyOracle) (minerID : String)
    (targetEpoch currentEpoch : ℤ) (isEstimate : Bool) (sectorNumbers : List ℤ)
    (ts : Snapshot) : CalculationResult :=
  let base : CalculationResult :=
    { MinerID := minerID, TargetEpoch := targetEpoch, CurrentEpoch := currentEpoch,
      IsEstimate := isEstimate, TotalSectors := 0, ActiveSectors := 0, ExpiredSectors := 0,
      TotalFee := 0, SectorResults := [], Error := none }
  if ts.minerVersion < 16 then
    { base with Error := some (CalcErr.unsupportedMinerVersion ts.minerVersion) }
  else
    match getSectorList ts sectorNumbers with
    | Except.error e => { base with Error := some e }
    | Except.ok sectors =>
      match calcSectorFees oracle ts.networkVersion ts.sectorSize ts.rewardSmoothed
          ts.powerSmoothed targetEpoch sectors with
      | Except.error e =>
        { base with TotalSectors := (sectors.length : ℤ), Error := some e }
      | Except.ok (totalFee, expired, results) =>
        { base with
          TotalSectors := (sectors.length : ℤ), ExpiredSectors := expired,
          ActiveSectors := (sectors.length : ℤ) - expired, TotalFee := totalFee,
          SectorResults := results }

/-- Embedding of utils.CalculateTerminationFee: reads the current height,
rewrites a zero target epoch to the current height, decides estimation mode,
resolves the tipset (current snapshot when estimating, historical snapshot
otherwise, whose absence is fatal), and hands over to calcAtSnapshot. -/
def CalculateTerminationFee (chain : Chain) (oracle : PenaltyOracle)
    (req : CalculationRequest) : CalculationResult :=
  let currentEpoch := chain.current.height
  let targetEpoch := if req.TargetEpoch = 0 then currentEpoch else req.TargetEpoch
  if currentEpoch < targetEpoch then
    calcAtSnapshot oracle req.MinerID targetEpoch currentEpoch true req.SectorNumbers chain.current
  else
    match chain.snapshots targetEpoch with
    | none =>
      { MinerID := req.MinerID, TargetEpoch := targetEpoch, CurrentEpoch := currentEpoch,
        IsEstimate := false, TotalSectors := 0, ActiveSectors := 0, ExpiredSectors := 0,
        TotalFee := 0, SectorResults := [],
        Error := some (CalcErr.getTipsetFailed targetEpoch) }
    | some ts =>
      calcAtSnapshot oracle req.MinerID targetEpoch currentEpoch false req.SectorNumbers ts

/-- Sum of the Fee fields over the non-expired sector results. -/
def nonExpiredFeeSum (results : List SectorResult) : ℤ :=
  ((results.filter (fun r => !r.IsExpired)).map (fun r => r.Fee)).sum

/-! ### Strategy optimizer (part_002, calculateMinerStrategy) -/

/-- Embedding of MinerStrategyTask (the Verbose flag only affects printing). -/
structure MinerStrategyTask where
  Index : ℤ
  MinerID : String
  TerminationEpoch : ℤ
  ExpirationThreshold : ℤ

/-- Embedding of SectorStrategy.  RemainingDays models the float64 field over ℚ. -/
structure SectorStrategy where
  SectorNumber : ℤ
  ExpirationEpoch : ℤ
  RemainingDays : ℚ
  Strategy : String
  TerminationFee : ℤ
  DailyFaultFee : ℤ
  ExpirationFee : ℤ
  RecommendedFee : ℤ

/-- Embedding of StrategyResult. -/
structure StrategyResult where
  Index : ℤ
  MinerID : String
  TerminationEpoch : ℤ
  ExpirationThreshold : ℤ
  TotalSectors : ℤ
  TerminateSectors : ℤ
  ExpireSectors : ℤ
  TerminationFee : ℤ
  ExpirationFee : ℤ
  TotalFee : ℤ
  SectorDetails : List SectorStrategy
  Status : String
  Error : Option CalcErr

/-- Accumulators of the per-sector strategy loop. -/
structure StrategyLoopOut where
  terminationFee : ℤ
  expirationFee : ℤ
  terminateCount : ℤ
  expireCount : ℤ
  details : List SectorStrategy

/-- Per-sector loop of calculateMinerStrategy (part_002 lines 563-638): already
expired sectors are skipped; a penalty-oracle failure makes the loop continue
with the next sector (the failing sector contributes nothing); otherwise the
expiration cost is the fault fee times the truncated remaining days, and the
threshold rule picks terminate or expire, accumulating fees, counts, and the
detail row. -/
def strategyLoop (oracle : PenaltyOracle) (nv sectorSize : ℤ) (rs ps : FilterEstimate)
    (terminationEpoch expirationThreshold : ℤ) :
    List SectorOnChainInfo → StrategyLoopOut
  | [] => { terminationFee := 0, expirationFee := 0, terminateCount := 0,
            expireCount := 0, details := [] }
  | sector :: rest =>
    let out := strategyLoop oracle nv sectorSize rs ps terminationEpoch expirationThreshold rest
    if sector.Expiration ≤ terminationEpoch then out
    else
      match oracle.pledgePenaltyForContinuedFault nv rs ps
          (oracle.qaPowerForSector sectorSize sector) with
      | Except.error _ => out
      | Except.ok faultFee =>
        match oracle.pledgePenaltyForTermination nv sector.InitialPledge
            (terminationEpoch - sector.Activation) faultFee with
        | Except.error _ => out
        | Except.ok termFee =>
          let remainingEpochs := sector.Expiration - terminationEpoch
          let expFee := faultFee * (remainingEpochs / 2880)
          let thresholdEpochs := expirationThreshold * 2880
          let baseDetail : SectorStrategy :=
            { SectorNumber := sector.SectorNumber, ExpirationEpoch := sector.Expiration,
              RemainingDays := EpochsToDays remainingEpochs, Strategy := "",
              TerminationFee := termFee, DailyFaultFee := faultFee,
              ExpirationFee := expFee, RecommendedFee := 0 }
          if expirationThreshold = 0 then
            { terminationFee := out.terminationFee + termFee,
              expirationFee := out.expirationFee,
              terminateCount := out.terminateCount + 1,
              expireCount := out.expireCount,
              details := { baseDetail with
                           Strategy := "terminate",
                           RecommendedFee := termFee } :: out.details }
          else if remainingEpochs ≤ thresholdEpochs then
            { terminationFee := out.terminationFee,
              expirationFee := out.expirationFee + expFee,
              terminateCount := out.terminateCount,
              expireCount := out.expireCount + 1,
              details := { baseDetail with
                           Strategy := "expire",
                           RecommendedFee := expFee } :: out.details }
          else
            { terminationFee := out.terminationFee + termFee,
              expirationFee := out.expirationFee,
              terminateCount := out.terminateCount + 1,
              expireCount := out.expireCount,
              details := { baseDetail with
                           Strategy := "terminate",
                           RecommendedFee := termFee } :: out.details }

/-- Embedding of calculateMinerStrategy (part_002 lines 445-654): tipset
resolution (current snapshot for a future termination epoch, historical lookup
otherwise), the miner version gate, the zero-sector early success return, and
the per-sector loop; TotalFee is the sum of the two fee accumulators. -/
def calculateMinerStrategy (chain : Chain) (oracle : PenaltyOracle)
    (task : MinerStrategyTask) : StrategyResult :=
  let base : StrategyResult :=
    { Index := task.Index, MinerID := task.MinerID,
      TerminationEpoch := task.TerminationEpoch,
      ExpirationThreshold := task.ExpirationThreshold,
      TotalSectors := 0, TerminateSectors := 0, ExpireSectors := 0,
      TerminationFee := 0, ExpirationFee := 0, TotalFee := 0,
      SectorDetails := [], Status := "", Error := none }
  let tsOpt := if chain.current.height < task.TerminationEpoch then some chain.current
               else chain.snapshots task.TerminationEpoch
  match tsOpt with
  | none =>
    { base with
      Error := some (CalcErr.getTipsetFailed task.TerminationEpoch),
      Status := "failed" }
  | some ts =>
    if ts.minerVersion < 16 then
      { base with
        Error := some (CalcErr.unsupportedMinerVersion ts.minerVersion),
        Status := "failed" }
    else
      let sectors := ts.sectors
      if sectors.length = 0 then { base with Status := "success" }
      else
        let out := strategyLoop oracle ts.networkVersion ts.sectorSize ts.rewardSmoothed
          ts.powerSmoothed task.TerminationEpoch task.ExpirationThreshold sectors
        { base with
          TotalSectors := (sectors.length : ℤ),
          TerminateSectors := out.terminateCount, ExpireSectors := out.expireCount,
          TerminationFee := out.terminationFee, ExpirationFee := out.expirationFee,
          TotalFee := out.terminationFee + out.expirationFee,
          SectorDetails := out.details, Status := "success" }

/-- Success of both penalty calls for one sector, with the arguments the loops use. -/
def oracleSucceeds (oracle : PenaltyOracle) (nv sectorSize : ℤ) (rs ps : FilterEstimate)
    (terminationEpoch : ℤ) (sector : SectorOnChainInfo) : Bool :=
  match oracle.pledgePenaltyForContinuedFault nv rs ps
      (oracle.qaPowerForSector sectorSize sector) with
  | Except.error _ => false
  | Except.ok faultFee =>
    match oracle.pledgePenaltyForTermination nv sector.InitialPledge
        (terminationEpoch - sector.Activation) faultFee with
    | Except.error _ => false
    | Except.ok _ => true

/-- A sector the strategy loop actually prices: non-expired and both penalty
calls succeed. -/
def priceable (oracle : PenaltyOracle) (nv sectorSize : ℤ) (rs ps : FilterEstimate)
    (terminationEpoch : ℤ) (sector : SectorOnChainInfo) : Bool :=
  decide (terminationEpoch < sector.Expiration) &&
    oracleSucceeds oracle nv sectorSize rs ps terminationEpoch sector

/-- Decision rule exactly as the specification words it (threshold 0 means
terminate; remaining epochs at most threshold times 2880 means expire; more
means terminate).  Stated from the spec, for comparison with strategyLoop. -/
def specStrategy (expirationThreshold terminationEpoch expirationEpoch : ℤ) : String :=
  if expirationThreshold = 0 then "terminate"
  else if expirationEpoch - terminationEpoch ≤ expirationThreshold * 2880 then "expire"
  else "terminate"

/-! ### Fleet summary (part_002, printSummary lines 756-803) -/

/-- Totals that printSummary accumulates over the error-free results:
(totalSectors, totalTerminate, totalExpire). -/
def summarySuccessTotals (results : List StrategyResult) : ℤ × ℤ × ℤ :=
  results.foldl
    (fun acc r =>
      if r.Error.isNone then
        (acc.1 + r.TotalSectors, acc.2.1 + r.TerminateSectors, acc.2.2 + r.ExpireSectors)
      else acc)
    (0, 0, 0)

/-- Divisor of the terminate and expire share percentages of printSummary
(part_002 lines 777-780).  The two divisions execute unconditionally for every
summary, with no zero guard. -/
def shareDivisor (results : List StrategyResult) : ℤ :=
  (summarySuccessTotals results).1

/-- Hypothetical all-terminate cost accumulated by printSummary over the
error-free results. -/
def allTerminationFeeTotal (results : List StrategyResult) : ℤ :=
  (results.filter (fun r => r.Error.isNone)).foldl
    (fun acc r => acc + (r.SectorDetails.map (fun d => d.TerminationFee)).sum) 0

/-- Guard under which printSummary computes the savings percentage
(totalSectors > 0 and allTerminationFee > 0); its divisor is allTerminationFee. -/
def savingsGuard (results : List StrategyResult) : Bool :=
  decide (0 < shareDivisor results) && decide (0 < allTerminationFeeTotal results)

/-! ### Concrete fixtures used by witnesses and counterexamples -/

/-- Reward signal of the repository's own unit tests: position 1000, velocity 100. -/
def fe1000 : FilterEstimate := ⟨1000, 100⟩

/-- Power signal of the repository's own unit tests: position 2000, velocity 200. -/
def fe2000 : FilterEstimate := ⟨2000, 200⟩

/-- Reward signal with position 19, a value not divisible by 10. -/
def fe19 : FilterEstimate := ⟨19, 0⟩

/-- One sector, activated at epoch 0 and expiring at epoch 100000. -/
def sector1 : SectorOnChainInfo := ⟨1, 0, 100000, 7⟩

/-- Snapshot at height 100 holding sector1. -/
def snapOne : Snapshot := ⟨100, 25, 16, 32, [sector1], fe1000, fe2000⟩

/-- Snapshot at height 100 with no sectors. -/
def snapEmpty : Snapshot := ⟨100, 25, 16, 32, [], fe1000, fe2000⟩

/-- Chain whose head is snapOne and with no finalized snapshots. -/
def chainOne : Chain := ⟨snapOne, fun _ => none⟩

/-- Chain whose head is snapEmpty and with no finalized snapshots. -/
def chainEmpty : Chain := ⟨snapEmpty, fun _ => none⟩

/-- Oracle whose fault fee echoes the reward position it receives and whose
termination fee echoes the fault fee, making the signals fed to it observable
in the resulting fees. -/
def sigOracle : PenaltyOracle :=
  ⟨fun _ rs _ _ => Except.ok rs.PositionEstimate,
   fun _ _ _ faultFee => Except.ok faultFee,
   fun sectorSize _ => sectorSize⟩

/-- Oracle that always fails, standing for a version-unsupported penalty formula. -/
def failOracle : PenaltyOracle :=
  ⟨fun _ _ _ _ => Except.error ("fault fee unavailable"),
   fun _ _ _ _ => Except.error ("termination fee unavailable"),
   fun sectorSize _ => sectorSize⟩

/-- Request targeting epoch 200 (above the head height 100, hence projected). -/
def reqProj : CalculationRequest := ⟨"f01234", 200, []⟩

/-- Strategy task targeting epoch 200 with a 7-day threshold. -/
def taskOne : MinerStrategyTask := ⟨0, "f01234", 200, 7⟩

/-- Strategy task for the zero-sector miner. -/
def taskEmpty : MinerStrategyTask := ⟨0, "f01235", 200, 7⟩

/-! ## Theorems -/

/-! ### Arithmetic helpers -/

theorem i64trunc_nonneg_eq_floor (q : ℚ) (h : 0 ≤ q) : i64trunc q = ⌊q⌋ := by
  unfold i64trunc
  rw [if_neg (not_lt.mpr h)]

theorem i64trunc_floor_eq (q : ℚ) (n : ℤ) (h0 : 0 ≤ q) (h1 : (n : ℚ) ≤ q)
    (h2 : q < n + 1) : i64trunc q = n := by
  rw [i64trunc_nonneg_eq_floor q h0]
  exact Int.floor_eq_iff.mpr ⟨h1, h2⟩

theorem gf1000_lower (off : ℤ) (h : 0 < off) :
    (1000 : ℤ) ≤ i64trunc ((1 + 0.0001 * (off : ℚ)) * 1000) := by
  have hoff : (1 : ℚ) ≤ (off : ℚ) := by exact_mod_cast h
  have hq : (0 : ℚ) ≤ (1 + 0.0001 * (off : ℚ)) * 1000 := by nlinarith
  rw [i64trunc_nonneg_eq_floor _ hq]
  rw [Int.le_floor]
  push_cast
  nlinarith

theorem i64trunc_scale_bounds (d : ℚ) (h1 : 1 / 10 ≤ d) (h2 : d ≤ 1 - 1 / 20000) :
    (100 : ℤ) ≤ i64trunc (d * 1000) ∧ i64trunc (d * 1000) ≤ 999 := by
  have h0 : (0 : ℚ) ≤ d * 1000 := by nlinarith
  rw [i64trunc_nonneg_eq_floor _ h0]
  constructor
  · rw [Int.le_floor]
    push_cast
    nlinarith
  · have hlt : ⌊d * 1000⌋ < 1000 := by
      rw [Int.floor_lt]
      push_cast
      nlinarith
    omega

theorem ediv1000_ge_self (p f : ℤ) (hp : 0 ≤ p) (hf : 1000 ≤ f) :
    p ≤ p * f / 1000 := by
  have h1 : p * 1000 ≤ p * f := mul_le_mul_of_nonneg_left hf hp
  calc p = p * 1000 / 1000 := (Int.mul_ediv_cancel p (by norm_num)).symm
    _ ≤ p * f / 1000 := Int.ediv_le_ediv (by norm_num) h1

theorem ediv1000_lt_self (r f : ℤ) (hr : 0 < r) (hf : f ≤ 999) :
    r * f / 1000 < r := by
  have h1 : r * f ≤ r * 999 := mul_le_mul_of_nonneg_left hf (le_of_lt hr)
  have h2 : r * 999 / 1000 < r := by
    rw [Int.ediv_lt_iff_lt_mul (by norm_num)]
    nlinarith
  exact lt_of_le_of_lt (Int.ediv_le_ediv (by norm_num) h1) h2

theorem ediv1000_ge_tenth (r f : ℤ) (hr : 0 ≤ r) (hf : 100 ≤ f) :
    r / 10 ≤ r * f / 1000 := by
  have h0 : r / 10 = r * 100 / 1000 := by
    rw [show ((1000 : ℤ)) = 100 * 10 by norm_num, show r * 100 = 100 * r by ring,
      Int.mul_ediv_mul_of_pos r 10 (by norm_num : (0 : ℤ) < 100)]
  rw [h0]
  exact Int.ediv_le_ediv (by norm_num) (mul_le_mul_of_nonneg_left hf hr)

/-! ### Claim C2 -/

/-- C2 (amended): for every positive projection offset and positive reward and
power positions, AdjustNetworkParams returns a projected power position at least
the original (equality is possible because the factor is truncated to integer
thousandths), a projected reward position strictly below the original, and a
projected reward position never below one tenth of the original rounded down,
even at an offset of 10 years. -/
theorem adjust_params_monotone_bounds (reward power : FilterEstimate) (off : ℤ)
    (hoff : 0 < off) (hr : 0 < reward.PositionEstimate)
    (hp : 0 < power.PositionEstimate) :
    power.PositionEstimate ≤ (AdjustNetworkParams reward power off).2.PositionEstimate ∧
    (AdjustNetworkParams reward power off).1.PositionEstimate < reward.PositionEstimate ∧
    reward.PositionEstimate / 10 ≤ (AdjustNetworkParams reward power off).1.PositionEstimate := by
  have hnot : ¬ off ≤ 0 := not_le.mpr hoff
  have hoff1 : (1 : ℚ) ≤ (off : ℚ) := by exact_mod_cast hoff
  simp only [AdjustNetworkParams, if_neg hnot]
  have hgf : (1000 : ℤ) ≤ i64trunc ((1 + 0.0001 * (off : ℚ)) * 1000) :=
    gf1000_lower off hoff
  have hdf : (100 : ℤ) ≤
      i64trunc ((if 1 - 0.00005 * (off : ℚ) < 0.1 then (0.1 : ℚ)
                 else 1 - 0.00005 * (off : ℚ)) * 1000) ∧
      i64trunc ((if 1 - 0.00005 * (off : ℚ) < 0.1 then (0.1 : ℚ)
                 else 1 - 0.00005 * (off : ℚ)) * 1000) ≤ 999 := by
    by_cases hlt : 1 - 0.00005 * (off : ℚ) < 0.1
    · rw [if_pos hlt]
      exact i64trunc_scale_bounds _ (by norm_num) (by norm_num)
    · rw [if_neg hlt]
      refine i64trunc_scale_bounds _ ?_ ?_
      · linarith [not_lt.mp hlt, show (0.1 : ℚ) = 1 / 10 by norm_num]
      · nlinarith
  refine ⟨?_, ?_, ?_⟩
  · exact ediv1000_ge_self power.PositionEstimate _ (le_of_lt hp) hgf
  · exact ediv1000_lt_self reward.PositionEstimate _ hr hdf.2
  · exact ediv1000_ge_tenth reward.PositionEstimate _ (le_of_lt hr) hdf.1

/-- C2 witness: concrete instance of adjust_params_monotone_bounds at offset
2880 with the signals of the repository tests. -/
theorem adjust_params_monotone_bounds_witness :
    (0 : ℤ) < 2880 ∧ (0 : ℤ) < fe1000.PositionEstimate ∧
    (0 : ℤ) < fe2000.PositionEstimate ∧
    (fe2000.PositionEstimate ≤ (AdjustNetworkParams fe1000 fe2000 2880).2.PositionEstimate ∧
     (AdjustNetworkParams fe1000 fe2000 2880).1.PositionEstimate < fe1000.PositionEstimate ∧
     fe1000.PositionEstimate / 10 ≤ (AdjustNetworkParams fe1000 fe2000 2880).1.PositionEstimate) :=
  ⟨by decide, by decide, by decide,
    adjust_params_monotone_bounds fe1000 fe2000 2880 (by decide) (by decide) (by decide)⟩

/-- C2 counterexample: at offset 1 the projected power position equals the
original (the truncated growth factor is exactly 1000), refuting strict growth;
and at the 10-year offset the projected reward position of an original position
19 is 1, which is below 10 percent of the original (10 * 1 < 19), refuting the
exact 10-percent floor.  Both parts trace the source arithmetic:
int64((1.0 + 0.0001*1)*1000) = 1000 and int64(0.1*1000) = 100, then
19*100/1000 = 1. -/
theorem adjust_params_cex :
    (AdjustNetworkParams fe1000 fe2000 1).2.PositionEstimate = fe2000.PositionEstimate ∧
    10 * (AdjustNetworkParams fe19 fe2000 (2880 * 365 * 10)).1.PositionEstimate <
      fe19.PositionEstimate := by
  have e1 : i64trunc ((1 + 0.0001 * ((1 : ℤ) : ℚ)) * 1000) = 1000 :=
    i64trunc_floor_eq _ 1000 (by norm_num) (by norm_num) (by norm_num)
  have e2 : i64trunc ((0.1 : ℚ) * 1000) = 100 :=
    i64trunc_floor_eq _ 100 (by norm_num) (by norm_num) (by norm_num)
  constructor
  · simp only [AdjustNetworkParams, if_neg (by norm_num : ¬ (1 : ℤ) ≤ 0), e1]
    decide
  · have hlt : 1 - 0.00005 * (((2880 * 365 * 10 : ℤ)) : ℚ) < 0.1 := by
      push_cast
      norm_num
    simp only [AdjustNetworkParams, if_neg (by norm_num : ¬ (2880 * 365 * 10 : ℤ) ≤ 0),
      if_pos hlt, e2]
    decide

/-! ### Claim C7 -/

/-- C7 (amended): for every nonnegative epoch e, converting e to a time and back
yields e exactly; and for every time at or after genesis, converting to an epoch
and back lands at or before the original time, short of it by strictly less than
one epoch duration.  For negative epochs the round trip instead clamps to 0
because TimeToEpoch clamps every pre-genesis time. -/
theorem epoch_time_roundtrip :
    (∀ e G : ℤ, 0 ≤ e → TimeToEpoch (EpochToTime e G) G = e) ∧
    (∀ t G : ℤ, G ≤ t → EpochToTime (TimeToEpoch t G) G ≤ t ∧
      t - EpochToTime (TimeToEpoch t G) G < EpochDuration) := by
  constructor
  · intro e G he
    unfold TimeToEpoch EpochToTime EpochDuration
    rw [if_neg (by nlinarith : ¬ G + e * (30 * 1000000000) < G)]
    rw [add_sub_cancel_left]
    exact Int.mul_ediv_cancel e (by norm_num)
  · intro t G ht
    unfold TimeToEpoch EpochToTime EpochDuration
    rw [if_neg (not_lt.mpr ht)]
    have h1 := Int.ediv_add_emod (t - G) (30 * 1000000000)
    have h2 := Int.emod_nonneg (t - G) (by norm_num : (30 * 1000000000 : ℤ) ≠ 0)
    have h3 := Int.emod_lt_of_pos (t - G) (by norm_num : (0 : ℤ) < 30 * 1000000000)
    omega

/-- C7 witness: the round trip at epoch 5 with genesis 1000, and the time
round trip at time 1234567 nanoseconds with genesis 1000. -/
theorem epoch_time_roundtrip_witness :
    ((0 : ℤ) ≤ 5 ∧ TimeToEpoch (EpochToTime 5 1000) 1000 = 5) ∧
    ((1000 : ℤ) ≤ 1234567 ∧ EpochToTime (TimeToEpoch 1234567 1000) 1000 ≤ 1234567 ∧
      1234567 - EpochToTime (TimeToEpoch 1234567 1000) 1000 < EpochDuration) :=
  ⟨⟨by decide, epoch_time_roundtrip.1 5 1000 (by decide)⟩,
   ⟨by decide, epoch_time_roundtrip.2 1234567 1000 (by decide)⟩⟩

/-- C7 counterexample: at epoch -1 (a value abi.ChainEpoch admits and the
repository tests exercise for EpochToTime) the resulting time lies before
genesis, so TimeToEpoch clamps it to 0, and the round trip returns 0 where the
claim requires -1. -/
theorem epoch_roundtrip_negative_cex :
    EpochToTime (-1) 0 < 0 ∧
    TimeToEpoch (EpochToTime (-1) 0) 0 = 0 ∧
    ((TimeToEpoch (EpochToTime (-1) 0) 0 == (-1 : ℤ)) = false) := by
  refine ⟨by decide, by decide, by decide⟩

/-! ### Claim C8 -/

/-- C8: ParseSectorNumbers maps the specified example inputs to the specified
outputs, and fails with the matching descriptive error, carrying no partial
result, on a non-numeric token, a negative number, and a descending range. -/
theorem parse_sector_numbers_examples :
    ParseSectorNumbers ("1,3-5,7".toList) = Except.ok [1, 3, 4, 5, 7] ∧
    ParseSectorNumbers ("1, 2 , 3".toList) = Except.ok [1, 2, 3] ∧
    ParseSectorNumbers ("".toList) = Except.ok [] ∧
    ParseSectorNumbers ("abc".toList) =
      Except.error (ParseErr.invalidSectorNumber ("abc".toList)) ∧
    ParseSectorNumbers ("-1".toList) = Except.error (ParseErr.invalidStartSector []) ∧
    ParseSectorNumbers ("3-1".toList) = Except.error (ParseErr.startGreaterThanEnd 3 1) ∧
    ParseSectorNumbers ("1,abc,3".toList) =
      Except.error (ParseErr.invalidSectorNumber ("abc".toList)) :=
  ⟨rfl, rfl, rfl, rfl, rfl, rfl, rfl⟩

/-! ### Claim C10 -/

theorem goAtoiDigits_nonneg (l : List Char) (n : ℤ) (h : goAtoiDigits l = some n) :
    0 ≤ n := by
  unfold goAtoiDigits at h
  split at h
  · exact absurd h (by simp)
  · split at h
    · obtain rfl : ((digitsVal l : ℕ) : ℤ) = n := Option.some.inj h
      exact Int.natCast_nonneg _
    · exact absurd h (by simp)

theorem goAtoi_nonneg_of_no_dash (l : List Char) (hcon : l.contains '-' = false)
    (n : ℤ) (h : goAtoi l = some n) : 0 ≤ n := by
  cases l with
  | nil => exact absurd h (by simp [goAtoi])
  | cons c rest =>
    have hc : ¬ c = '-' := by
      intro hc
      subst hc
      simp [List.contains_cons] at hcon
    rw [goAtoi, if_neg hc] at h
    by_cases hp : c = '+'
    · rw [if_pos hp] at h
      exact goAtoiDigits_nonneg rest n h
    · rw [if_neg hp] at h
      exact goAtoiDigits_nonneg (c :: rest) n h

theorem parsePart_no_negative (rawPart : List Char) :
    isSectorNegativeErr (parsePart rawPart) = false := by
  simp only [parsePart]
  by_cases hemp : (trimSpace rawPart).isEmpty
  · rw [if_pos hemp]
    rfl
  · rw [if_neg hemp]
    by_cases hdash : (trimSpace rawPart).contains '-'
    · rw [if_pos hdash]
      split
      · split
        · rfl
        · split
          · rfl
          · split
            · rfl
            · rfl
      · rfl
    · rw [if_neg hdash]
      split
      · rfl
      · next num heq =>
        have hfalse : (trimSpace rawPart).contains '-' = false :=
          Bool.not_eq_true _ ▸ hdash
        have hnn : 0 ≤ num := goAtoi_nonneg_of_no_dash (trimSpace rawPart) hfalse num heq
        rw [if_neg (not_lt.mpr hnn)]
        rfl

theorem parseParts_no_negative (ps : List (List Char)) :
    isSectorNegativeErr (parseParts ps) = false := by
  induction ps with
  | nil => rfl
  | cons p rest ih =>
    simp only [parseParts]
    split
    · next e heq =>
      have h := parsePart_no_negative p
      rw [heq] at h
      exact h
    · next nums heq =>
      split
      · next e2 heq2 =>
        rw [heq2] at ih
        exact ih
      · rfl

/-- C10: the negative-number error of ParseSectorNumbers is unreachable for
every input string, because every token containing a dash is routed to the
range branch, so the single-number branch only ever parses dash-free tokens,
whose Atoi value is nonnegative; and the plain negative token -1 is instead
rejected by the range branch with the invalid-start-sector error (whose token
is the empty string left of the dash). -/
theorem negative_error_unreachable :
    (∀ s : List Char, isSectorNegativeErr (ParseSectorNumbers s) = false) ∧
    ParseSectorNumbers ("-1".toList) = Except.error (ParseErr.invalidStartSector []) :=
  ⟨fun s => parseParts_no_negative (splitOnChar ',' s), rfl⟩

/-! ### Fee loop and snapshot lemmas -/

theorem calcSectorFees_ok (oracle : PenaltyOracle) (nv sectorSize : ℤ)
    (rs ps : FilterEstimate) (targetEpoch : ℤ) :
    ∀ (sectors : List SectorOnChainInfo) (tf ex : ℤ) (res : List SectorResult),
      calcSectorFees oracle nv sectorSize rs ps targetEpoch sectors =
        Except.ok (tf, ex, res) →
      tf = nonExpiredFeeSum res ∧ res.length = sectors.length ∧
      ∀ s ∈ sectors, targetEpoch < s.Expiration →
        oracleSucceeds oracle nv sectorSize rs ps targetEpoch s = true := by
  intro sectors
  induction sectors with
  | nil =>
    intro tf ex res h
    simp only [calcSectorFees, Except.ok.injEq, Prod.mk.injEq] at h
    obtain ⟨h1, h2, h3⟩ := h
    subst h1
    subst h3
    refine ⟨by simp [nonExpiredFeeSum], rfl, ?_⟩
    intro s hs
    exact absurd hs (List.not_mem_nil s)
  | cons sector rest ih =>
    intro tf ex res h
    simp only [calcSectorFees] at h
    by_cases hexp : sector.Expiration ≤ targetEpoch
    · rw [if_pos hexp] at h
      cases hrec : calcSectorFees oracle nv sectorSize rs ps targetEpoch rest with
      | error e =>
        rw [hrec] at h
        exact absurd h (by simp)
      | ok out =>
        obtain ⟨tf', ex', res'⟩ := out
        rw [hrec] at h
        simp only [Except.ok.injEq, Prod.mk.injEq] at h
        obtain ⟨h1, h2, h3⟩ := h
        subst h1
        subst h3
        obtain ⟨ih1, ih2, ih3⟩ := ih tf' ex' res' hrec
        refine ⟨?_, ?_, ?_⟩
        · simpa [nonExpiredFeeSum] using ih1
        · simp [ih2]
        · intro s hs hlt
          rcases List.mem_cons.mp hs with rfl | hs'
          · exact absurd hlt (by omega)
          · exact ih3 s hs' hlt
    · rw [if_neg hexp] at h
      cases hff : oracle.pledgePenaltyForContinuedFault nv rs ps
          (oracle.qaPowerForSector sectorSize sector) with
      | error msg =>
        rw [hff] at h
        exact absurd h (by simp)
      | ok faultFee =>
        simp only [hff] at h
        cases htf : oracle.pledgePenaltyForTermination nv sector.InitialPledge
            (targetEpoch - sector.Activation) faultFee with
        | error msg =>
          simp only [htf] at h
          exact absurd h (by simp)
        | ok fee =>
          simp only [htf] at h
          cases hrec : calcSectorFees oracle nv sectorSize rs ps targetEpoch rest with
          | error e =>
            simp only [hrec] at h
            exact absurd h (by simp)
          | ok out =>
            obtain ⟨tf', ex', res'⟩ := out
            simp only [hrec] at h
            simp only [Except.ok.injEq, Prod.mk.injEq] at h
            obtain ⟨h1, h2, h3⟩ := h
            subst h1
            subst h3
            obtain ⟨ih1, ih2, ih3⟩ := ih tf' ex' res' hrec
            refine ⟨?_, ?_, ?_⟩
            · simp only [nonExpiredFeeSum] at ih1 ⊢
              simp [ih1]
              ring
            · simp [ih2]
            · intro s hs hlt
              rcases List.mem_cons.mp hs with rfl | hs'
              · simp [oracleSucceeds, hff, htf]
              · exact ih3 s hs' hlt

theorem calcAtSnapshot_fields (oracle : PenaltyOracle) (minerID : String)
    (targetEpoch currentEpoch : ℤ) (isEstimate : Bool) (sectorNumbers : List ℤ)
    (ts : Snapshot) :
    (calcAtSnapshot oracle minerID targetEpoch currentEpoch isEstimate sectorNumbers ts).MinerID
        = minerID ∧
    (calcAtSnapshot oracle minerID targetEpoch currentEpoch isEstimate sectorNumbers ts).TargetEpoch
        = targetEpoch ∧
    (calcAtSnapshot oracle minerID targetEpoch currentEpoch isEstimate sectorNumbers ts).CurrentEpoch
        = currentEpoch ∧
    (calcAtSnapshot oracle minerID targetEpoch currentEpoch isEstimate sectorNumbers ts).IsEstimate
        = isEstimate := by
  simp only [calcAtSnapshot]
  split
  · exact ⟨rfl, rfl, rfl, rfl⟩
  · split
    · exact ⟨rfl, rfl, rfl, rfl⟩
    · split
      · exact ⟨rfl, rfl, rfl, rfl⟩
      · exact ⟨rfl, rfl, rfl, rfl⟩

theorem calcAtSnapshot_invariants (oracle : PenaltyOracle) (minerID : String)
    (targetEpoch currentEpoch : ℤ) (isEstimate : Bool) (sectorNumbers : List ℤ)
    (ts : Snapshot)
    (h : (calcAtSnapshot oracle minerID targetEpoch currentEpoch isEstimate
        sectorNumbers ts).Error = none) :
    (calcAtSnapshot oracle minerID targetEpoch currentEpoch isEstimate sectorNumbers
        ts).ActiveSectors +
      (calcAtSnapshot oracle minerID targetEpoch currentEpoch isEstimate sectorNumbers
        ts).ExpiredSectors =
      (calcAtSnapshot oracle minerID targetEpoch currentEpoch isEstimate sectorNumbers
        ts).TotalSectors ∧
    (calcAtSnapshot oracle minerID targetEpoch currentEpoch isEstimate sectorNumbers
        ts).TotalFee =
      nonExpiredFeeSum (calcAtSnapshot oracle minerID targetEpoch currentEpoch isEstimate
        sectorNumbers ts).SectorResults := by
  by_cases h16 : ts.minerVersion < 16
  · exfalso
    simp [calcAtSnapshot, if_pos h16] at h
  · cases hgs : getSectorList ts sectorNumbers with
    | error e =>
      exfalso
      simp [calcAtSnapshot, if_neg h16, hgs] at h
    | ok sectors =>
      cases hcf : calcSectorFees oracle ts.networkVersion ts.sectorSize ts.rewardSmoothed
          ts.powerSmoothed targetEpoch sectors with
      | error e =>
        exfalso
        simp [calcAtSnapshot, if_neg h16, hgs, hcf] at h
      | ok out =>
        obtain ⟨tf, ex, res⟩ := out
        obtain ⟨hsum, hlen, -⟩ := calcSectorFees_ok oracle ts.networkVersion ts.sectorSize
          ts.rewardSmoothed ts.powerSmoothed targetEpoch sectors tf ex res hcf
        simp only [calcAtSnapshot, if_neg h16, hgs, hcf]
        constructor
        · show ((sectors.length : ℤ) - ex) + ex = (sectors.length : ℤ)
          ring
        · show tf = nonExpiredFeeSum res
          exact hsum

/-! ### Claim C4 -/

/-- C4: every CalculationResult that CalculateTerminationFee returns without an
error satisfies ActiveSectors + ExpiredSectors = TotalSectors, and its TotalFee
is the sum of the Fee fields over the non-expired entries of SectorResults. -/
theorem calculation_result_invariants (chain : Chain) (oracle : PenaltyOracle)
    (req : CalculationRequest)
    (h : (CalculateTerminationFee chain oracle req).Error = none) :
    (CalculateTerminationFee chain oracle req).ActiveSectors +
      (CalculateTerminationFee chain oracle req).ExpiredSectors =
      (CalculateTerminationFee chain oracle req).TotalSectors ∧
    (CalculateTerminationFee chain oracle req).TotalFee =
      nonExpiredFeeSum (CalculateTerminationFee chain oracle req).SectorResults := by
  by_cases hest : chain.current.height <
      (if req.TargetEpoch = 0 then chain.current.height else req.TargetEpoch)
  · simp only [CalculateTerminationFee, if_pos hest] at h ⊢
    exact calcAtSnapshot_invariants _ _ _ _ _ _ _ h
  · cases hsnap : chain.snapshots
        (if req.TargetEpoch = 0 then chain.current.height else req.TargetEpoch) with
    | none =>
      exfalso
      simp [CalculateTerminationFee, if_neg hest, hsnap] at h
    | some ts =>
      simp only [CalculateTerminationFee, if_neg hest, hsnap] at h ⊢
      exact calcAtSnapshot_invariants _ _ _ _ _ _ _ h

/-- C4 witness: the projected calculation of chainOne with the signal-echoing
oracle succeeds and satisfies both invariants. -/
theorem calculation_result_invariants_witness :
    (CalculateTerminationFee chainOne sigOracle reqProj).Error = none ∧
    ((CalculateTerminationFee chainOne sigOracle reqProj).ActiveSectors +
        (CalculateTerminationFee chainOne sigOracle reqProj).ExpiredSectors =
        (CalculateTerminationFee chainOne sigOracle reqProj).TotalSectors ∧
      (CalculateTerminationFee chainOne sigOracle reqProj).TotalFee =
        nonExpiredFeeSum (CalculateTerminationFee chainOne sigOracle reqProj).SectorResults) :=
  ⟨rfl, calculation_result_invariants chainOne sigOracle reqProj rfl⟩

/-! ### Claim C1 -/

/-- C1 (amended): in projected mode (target epoch nonzero and above the current
height; a zero target epoch is first rewritten to the current height and is
never projected), the calculation runs against the current snapshot with
isEstimate true; the reward and power signals of that snapshot are passed to
the per-sector fee computation exactly as read — AdjustNetworkParams is not
invoked anywhere on this path. -/
theorem projected_mode_uses_current_snapshot (chain : Chain) (oracle : PenaltyOracle)
    (req : CalculationRequest) (h0 : req.TargetEpoch ≠ 0)
    (h1 : chain.current.height < req.TargetEpoch) :
    CalculateTerminationFee chain oracle req =
      calcAtSnapshot oracle req.MinerID req.TargetEpoch chain.current.height true
        req.SectorNumbers chain.current ∧
    (CalculateTerminationFee chain oracle req).IsEstimate = true ∧
    (CalculateTerminationFee chain oracle req).CurrentEpoch = chain.current.height ∧
    (CalculateTerminationFee chain oracle req).TargetEpoch = req.TargetEpoch := by
  have heq : CalculateTerminationFee chain oracle req =
      calcAtSnapshot oracle req.MinerID req.TargetEpoch chain.current.height true
        req.SectorNumbers chain.current := by
    simp only [CalculateTerminationFee, if_neg h0, if_pos h1]
  obtain ⟨-, hT, hC, hI⟩ := calcAtSnapshot_fields oracle req.MinerID req.TargetEpoch
    chain.current.height true req.SectorNumbers chain.current
  refine ⟨heq, ?_, ?_, ?_⟩ <;> rw [heq]
  · exact hI
  · exact hC
  · exact hT

/-- C1 witness: chainOne at target epoch 200 (head height 100) is projected and
runs on the current snapshot. -/
theorem projected_mode_uses_current_snapshot_witness :
    ((reqProj.TargetEpoch == 0) = false ∧ chainOne.current.height < reqProj.TargetEpoch) ∧
    (CalculateTerminationFee chainOne sigOracle reqProj =
      calcAtSnapshot sigOracle reqProj.MinerID reqProj.TargetEpoch chainOne.current.height
        true reqProj.SectorNumbers chainOne.current ∧
    (CalculateTerminationFee chainOne sigOracle reqProj).IsEstimate = true ∧
    (CalculateTerminationFee chainOne sigOracle reqProj).CurrentEpoch =
      chainOne.current.height ∧
    (CalculateTerminationFee chainOne sigOracle reqProj).TargetEpoch =
      reqProj.TargetEpoch) :=
  ⟨⟨by decide, by decide⟩,
    projected_mode_uses_current_snapshot chainOne sigOracle reqProj (by decide) (by decide)⟩

/-- C1 counterexample: with the signal-echoing oracle the fee of the single
active sector equals the raw reward position 1000 of the current snapshot,
while AdjustNetworkParams applied to the same signals at the very offset the
claim specifies (targetEpoch - currentEpoch = 100) yields reward position 995:
the fee path demonstrably did not receive the projected signals, so the claimed
invocation of the projector does not happen. -/
theorem projector_not_invoked_cex :
    (CalculateTerminationFee chainOne sigOracle reqProj).IsEstimate = true ∧
    (CalculateTerminationFee chainOne sigOracle reqProj).TotalFee =
      fe1000.PositionEstimate ∧
    (AdjustNetworkParams fe1000 fe2000
        ((CalculateTerminationFee chainOne sigOracle reqProj).TargetEpoch -
          (CalculateTerminationFee chainOne sigOracle reqProj).CurrentEpoch)).1.PositionEstimate
      = 995 ∧
    (AdjustNetworkParams fe1000 fe2000
        ((CalculateTerminationFee chainOne sigOracle reqProj).TargetEpoch -
          (CalculateTerminationFee chainOne sigOracle reqProj).CurrentEpoch)).1.PositionEstimate
      < (CalculateTerminationFee chainOne sigOracle reqProj).TotalFee := by
  have hoff : (CalculateTerminationFee chainOne sigOracle reqProj).TargetEpoch -
      (CalculateTerminationFee chainOne sigOracle reqProj).CurrentEpoch = (100 : ℤ) := by
    decide
  have hfee : (CalculateTerminationFee chainOne sigOracle reqProj).TotalFee = (1000 : ℤ) := by
    decide
  have hnlt : ¬ (1 - 0.00005 * ((100 : ℤ) : ℚ)) < 0.1 := by
    push_cast
    norm_num
  have e995 : i64trunc ((1 - 0.00005 * ((100 : ℤ) : ℚ)) * 1000) = 995 := by
    refine i64trunc_floor_eq _ 995 ?_ ?_ ?_ <;> · push_cast; norm_num
  have hadj : (AdjustNetworkParams fe1000 fe2000 (100 : ℤ)).1.PositionEstimate = 995 := by
    simp only [AdjustNetworkParams, if_neg (by norm_num : ¬ (100 : ℤ) ≤ 0), if_neg hnlt, e995]
    decide
  refine ⟨by decide, by decide, ?_, ?_⟩
  · rw [hoff]
    exact hadj
  · rw [hoff, hadj, hfee]
    decide

/-! ### Strategy loop lemmas -/

theorem strategyLoop_counts (oracle : PenaltyOracle) (nv sectorSize : ℤ)
    (rs ps : FilterEstimate) (terminationEpoch expirationThreshold : ℤ) :
    ∀ sectors : List SectorOnChainInfo,
      (strategyLoop oracle nv sectorSize rs ps terminationEpoch expirationThreshold
          sectors).terminateCount +
        (strategyLoop oracle nv sectorSize rs ps terminationEpoch expirationThreshold
          sectors).expireCount =
        ((sectors.filter (priceable oracle nv sectorSize rs ps terminationEpoch)).length : ℤ) ∧
      ((strategyLoop oracle nv sectorSize rs ps terminationEpoch expirationThreshold
          sectors).details.length : ℤ) =
        ((sectors.filter (priceable oracle nv sectorSize rs ps terminationEpoch)).length : ℤ) := by
  intro sectors
  induction sectors with
  | nil => simp [strategyLoop]
  | cons sector rest ih =>
    obtain ⟨ih1, ih2⟩ := ih
    simp only [strategyLoop]
    by_cases hexp : sector.Expiration ≤ terminationEpoch
    · have hpr : priceable oracle nv sectorSize rs ps terminationEpoch sector = false := by
        simp [priceable, not_lt.mpr hexp]
      rw [if_pos hexp]
      simp only [List.filter_cons, hpr, if_false, Bool.false_eq_true]
      exact ⟨ih1, ih2⟩
    · rw [if_neg hexp]
      cases hff : oracle.pledgePenaltyForContinuedFault nv rs ps
          (oracle.qaPowerForSector sectorSize sector) with
      | error msg =>
        have hpr : priceable oracle nv sectorSize rs ps terminationEpoch sector = false := by
          simp [priceable, oracleSucceeds, hff]
        simp only [hff, List.filter_cons, hpr, if_false, Bool.false_eq_true]
        exact ⟨ih1, ih2⟩
      | ok faultFee =>
        cases htf : oracle.pledgePenaltyForTermination nv sector.InitialPledge
            (terminationEpoch - sector.Activation) faultFee with
        | error msg =>
          have hpr : priceable oracle nv sectorSize rs ps terminationEpoch sector = false := by
            simp [priceable, oracleSucceeds, hff, htf]
          simp only [hff, htf, List.filter_cons, hpr, if_false, Bool.false_eq_true]
          exact ⟨ih1, ih2⟩
        | ok termFee =>
          have hpr : priceable oracle nv sectorSize rs ps terminationEpoch sector = true := by
            simp [priceable, oracleSucceeds, hff, htf, not_le.mp hexp]
          simp only [hff, htf, List.filter_cons, hpr, if_true]
          constructor
          · split
            · simp only [List.length_cons]
              push_cast
              omega
            · split
              · simp only [List.length_cons]
                push_cast
                omega
              · simp only [List.length_cons]
                push_cast
                omega
          · split
            · simp only [List.length_cons]
              push_cast
              omega
            · split
              · simp only [List.length_cons]
                push_cast
                omega
              · simp only [List.length_cons]
                push_cast
                omega

/-! ### Claim C6 -/

/-- C6: every sector the strategy loop assigns an action to follows the
threshold rule exactly as the specification words it: threshold 0 forces
terminate, remaining epochs at most threshold times 2880 gives expire
(the boundary resolves to expire), and anything beyond gives terminate. -/
theorem strategy_action_threshold_rule (oracle : PenaltyOracle) (nv sectorSize : ℤ)
    (rs ps : FilterEstimate) (terminationEpoch expirationThreshold : ℤ)
    (sectors : List SectorOnChainInfo) :
    ((strategyLoop oracle nv sectorSize rs ps terminationEpoch expirationThreshold
        sectors).details.all
      (fun d => d.Strategy == specStrategy expirationThreshold terminationEpoch
        d.ExpirationEpoch)) = true := by
  induction sectors with
  | nil => rfl
  | cons sector rest ih =>
    simp only [strategyLoop]
    by_cases hexp : sector.Expiration ≤ terminationEpoch
    · rw [if_pos hexp]
      exact ih
    · rw [if_neg hexp]
      cases hff : oracle.pledgePenaltyForContinuedFault nv rs ps
          (oracle.qaPowerForSector sectorSize sector) with
      | error msg =>
        simp only [hff]
        exact ih
      | ok faultFee =>
        cases htf : oracle.pledgePenaltyForTermination nv sector.InitialPledge
            (terminationEpoch - sector.Activation) faultFee with
        | error msg =>
          simp only [hff, htf]
          exact ih
        | ok termFee =>
          simp only [hff, htf]
          by_cases h0 : expirationThreshold = 0
          · subst h0
            rw [if_pos rfl]
            simp only [List.all_cons, Bool.and_eq_true]
            refine ⟨?_, ih⟩
            simp only [specStrategy, if_pos rfl]
            rfl
          · by_cases hrem : sector.Expiration - terminationEpoch ≤ expirationThreshold * 2880
            · rw [if_neg h0, if_pos hrem]
              simp only [List.all_cons, Bool.and_eq_true]
              refine ⟨?_, ih⟩
              simp only [specStrategy, if_neg h0, if_pos hrem]
              rfl
            · rw [if_neg h0, if_neg hrem]
              simp only [List.all_cons, Bool.and_eq_true]
              refine ⟨?_, ih⟩
              simp only [specStrategy, if_neg h0, if_neg hrem]
              rfl

/-! ### Claim C5 -/

theorem strategy_invariants_core (chain : Chain) (oracle : PenaltyOracle)
    (task : MinerStrategyTask)
    (h : (calculateMinerStrategy chain oracle task).Status = "success") :
    (calculateMinerStrategy chain oracle task).TerminateSectors +
      (calculateMinerStrategy chain oracle task).ExpireSectors ≤
      (calculateMinerStrategy chain oracle task).TotalSectors ∧
    (calculateMinerStrategy chain oracle task).TotalFee =
      (calculateMinerStrategy chain oracle task).TerminationFee +
        (calculateMinerStrategy chain oracle task).ExpirationFee := by
  cases hts : (if chain.current.height < task.TerminationEpoch then some chain.current
               else chain.snapshots task.TerminationEpoch) with
  | none =>
    simp [calculateMinerStrategy, hts] at h
  | some ts =>
    by_cases h16 : ts.minerVersion < 16
    · simp [calculateMinerStrategy, hts, if_pos h16] at h
    · by_cases hlen : ts.sectors.length = 0
      · simp only [calculateMinerStrategy, hts, if_neg h16, if_pos hlen]
        exact ⟨by norm_num, by norm_num⟩
      · simp only [calculateMinerStrategy, hts, if_neg h16, if_neg hlen]
        obtain ⟨hc, -⟩ := strategyLoop_counts oracle ts.networkVersion ts.sectorSize
          ts.rewardSmoothed ts.powerSmoothed task.TerminationEpoch task.ExpirationThreshold
          ts.sectors
        constructor
        · show (strategyLoop oracle ts.networkVersion ts.sectorSize ts.rewardSmoothed
              ts.powerSmoothed task.TerminationEpoch task.ExpirationThreshold
              ts.sectors).terminateCount +
            (strategyLoop oracle ts.networkVersion ts.sectorSize ts.rewardSmoothed
              ts.powerSmoothed task.TerminationEpoch task.ExpirationThreshold
              ts.sectors).expireCount ≤ (ts.sectors.length : ℤ)
          rw [hc]
          exact_mod_cast List.length_filter_le _ _
        · trivial

/-- C5: every successful StrategyResult satisfies
TerminateSectors + ExpireSectors at most TotalSectors (already-expired sectors,
and sectors the loop skips, are excluded from both counts) and
TotalFee = TerminationFee + ExpirationFee. -/
theorem strategy_result_invariants (chain : Chain) (oracle : PenaltyOracle)
    (task : MinerStrategyTask)
    (h : (calculateMinerStrategy chain oracle task).Status = "success") :
    (calculateMinerStrategy chain oracle task).TerminateSectors +
      (calculateMinerStrategy chain oracle task).ExpireSectors ≤
      (calculateMinerStrategy chain oracle task).TotalSectors ∧
    (calculateMinerStrategy chain oracle task).TotalFee =
      (calculateMinerStrategy chain oracle task).TerminationFee +
        (calculateMinerStrategy chain oracle task).ExpirationFee :=
  strategy_invariants_core chain oracle task h

/-- C5 witness: the strategy run of chainOne with the signal-echoing oracle
succeeds and satisfies both invariants. -/
theorem strategy_result_invariants_witness :
    (calculateMinerStrategy chainOne sigOracle taskOne).Status = "success" ∧
    ((calculateMinerStrategy chainOne sigOracle taskOne).TerminateSectors +
        (calculateMinerStrategy chainOne sigOracle taskOne).ExpireSectors ≤
        (calculateMinerStrategy chainOne sigOracle taskOne).TotalSectors ∧
      (calculateMinerStrategy chainOne sigOracle taskOne).TotalFee =
        (calculateMinerStrategy chainOne sigOracle taskOne).TerminationFee +
          (calculateMinerStrategy chainOne sigOracle taskOne).ExpirationFee) :=
  ⟨rfl, strategy_result_invariants chainOne sigOracle taskOne rfl⟩

/-! ### Claim C3 -/

/-- C3 (amended): in CalculateTerminationFee's per-sector loop a penalty
failure is fatal for the whole request — a successful loop result prices every
sector (one result row per sector) and certifies that both penalty calls
succeeded for every non-expired sector; in calculateMinerStrategy's loop a
penalty failure is instead swallowed: the detail rows and the terminate and
expire counts cover exactly the non-expired sectors whose penalty calls
succeeded, so a failing sector is silently dropped from the totals while the
request still succeeds. -/
theorem penalty_failure_propagation (oracle : PenaltyOracle) (nv sectorSize : ℤ)
    (rs ps : FilterEstimate) (targetEpoch expirationThreshold : ℤ)
    (sectors : List SectorOnChainInfo) :
    (∀ tf ex res, calcSectorFees oracle nv sectorSize rs ps targetEpoch sectors =
        Except.ok (tf, ex, res) →
      res.length = sectors.length ∧
      ∀ s ∈ sectors, targetEpoch < s.Expiration →
        oracleSucceeds oracle nv sectorSize rs ps targetEpoch s = true) ∧
    ((strategyLoop oracle nv sectorSize rs ps targetEpoch expirationThreshold
        sectors).details.length : ℤ) =
      ((sectors.filter (priceable oracle nv sectorSize rs ps targetEpoch)).length : ℤ) ∧
    (strategyLoop oracle nv sectorSize rs ps targetEpoch expirationThreshold
        sectors).terminateCount +
      (strategyLoop oracle nv sectorSize rs ps targetEpoch expirationThreshold
        sectors).expireCount =
      ((sectors.filter (priceable oracle nv sectorSize rs ps targetEpoch)).length : ℤ) :=
  ⟨fun tf ex res h =>
    ⟨(calcSectorFees_ok oracle nv sectorSize rs ps targetEpoch sectors tf ex res h).2.1,
     (calcSectorFees_ok oracle nv sectorSize rs ps targetEpoch sectors tf ex res h).2.2⟩,
   (strategyLoop_counts oracle nv sectorSize rs ps targetEpoch expirationThreshold sectors).2,
   (strategyLoop_counts oracle nv sectorSize rs ps targetEpoch expirationThreshold sectors).1⟩

/-- C3 witness: on the singleton sector list with the succeeding oracle, the
loop returns one priced row and the theorem certifies both penalty calls. -/
theorem penalty_failure_propagation_witness :
    oracleSucceeds sigOracle 25 32 fe1000 fe2000 200 sector1 = true :=
  ((penalty_failure_propagation sigOracle 25 32 fe1000 fe2000 200 7 [sector1]).1
      1000 0 [⟨1, 1000, 200, false, 0⟩] rfl).2 sector1
    (List.mem_singleton.mpr rfl) (by decide)

/-- C3 counterexample: with an always-failing penalty oracle,
calculateMinerStrategy still reports success with no error for a miner holding
one active sector — the sector is silently dropped: no detail row, both counts
zero, total fee zero — contradicting the claim that the failure is fatal for
the whole request. -/
theorem strategy_skips_failed_sector_cex :
    oracleSucceeds failOracle 25 32 fe1000 fe2000 200 sector1 = false ∧
    (calculateMinerStrategy chainOne failOracle taskOne).Status = "success" ∧
    (calculateMinerStrategy chainOne failOracle taskOne).Error = none ∧
    (calculateMinerStrategy chainOne failOracle taskOne).TotalSectors = 1 ∧
    (calculateMinerStrategy chainOne failOracle taskOne).SectorDetails = [] ∧
    (calculateMinerStrategy chainOne failOracle taskOne).TerminateSectors = 0 ∧
    (calculateMinerStrategy chainOne failOracle taskOne).ExpireSectors = 0 ∧
    (calculateMinerStrategy chainOne failOracle taskOne).TotalFee = 0 :=
  ⟨rfl, rfl, rfl, rfl, rfl, rfl, rfl, rfl⟩

/-! ### Claim C9 -/

/-- C9 (amended): every successful strategy result — including zero-sector
operators — satisfies the section-3 invariants, and the savings percentage of
the fleet summary is computed only under a guard that keeps its divisor
positive; the terminate and expire share percentages, by contrast, divide by
the fleet-wide sector total unconditionally (see the counterexample, where that
divisor is zero). -/
theorem summary_invariants_and_guard (chain : Chain) (oracle : PenaltyOracle)
    (task : MinerStrategyTask) (results : List StrategyResult)
    (h : (calculateMinerStrategy chain oracle task).Status = "success")
    (hg : savingsGuard results = true) :
    ((calculateMinerStrategy chain oracle task).TerminateSectors +
        (calculateMinerStrategy chain oracle task).ExpireSectors ≤
        (calculateMinerStrategy chain oracle task).TotalSectors ∧
      (calculateMinerStrategy chain oracle task).TotalFee =
        (calculateMinerStrategy chain oracle task).TerminationFee +
          (calculateMinerStrategy chain oracle task).ExpirationFee) ∧
    0 < allTerminationFeeTotal results := by
  refine ⟨strategy_invariants_core chain oracle task h, ?_⟩
  unfold savingsGuard at hg
  rw [Bool.and_eq_true] at hg
  exact of_decide_eq_true hg.2

/-- C9 witness: the result of chainOne is successful, and the one-element fleet
made of it passes the savings guard with a positive divisor. -/
theorem summary_invariants_and_guard_witness :
    (calculateMinerStrategy chainOne sigOracle taskOne).Status = "success" ∧
    savingsGuard [calculateMinerStrategy chainOne sigOracle taskOne] = true ∧
    (((calculateMinerStrategy chainOne sigOracle taskOne).TerminateSectors +
        (calculateMinerStrategy chainOne sigOracle taskOne).ExpireSectors ≤
        (calculateMinerStrategy chainOne sigOracle taskOne).TotalSectors ∧
      (calculateMinerStrategy chainOne sigOracle taskOne).TotalFee =
        (calculateMinerStrategy chainOne sigOracle taskOne).TerminationFee +
          (calculateMinerStrategy chainOne sigOracle taskOne).ExpirationFee) ∧
      0 < allTerminationFeeTotal [calculateMinerStrategy chainOne sigOracle taskOne]) :=
  ⟨rfl, rfl,
    summary_invariants_and_guard chainOne sigOracle taskOne
      [calculateMinerStrategy chainOne sigOracle taskOne] rfl rfl⟩

/-- C9 counterexample: a zero-sector operator produces a successful, error-free
result, and the fleet summary over it has share divisor 0 — yet the terminate
and expire share divisions of printSummary execute unconditionally, so they
divide by zero there, contradicting the claim. -/
theorem summary_share_division_by_zero_cex :
    (calculateMinerStrategy chainEmpty sigOracle taskEmpty).Status = "success" ∧
    (calculateMinerStrategy chainEmpty sigOracle taskEmpty).Error = none ∧
    (calculateMinerStrategy chainEmpty sigOracle taskEmpty).TotalSectors = 0 ∧
    shareDivisor [calculateMinerStrategy chainEmpty sigOracle taskEmpty] = 0 :=
  ⟨rfl, rfl, rfl, rfl⟩

end FilTerminator
